import Mathlib

/-!
Verification of the nunzio workout-logging core: a shallow embedding of the
message post-processing pipeline (`src/nunzio/core.py`) and the repository
helpers (`src/nunzio/database/repository.py`), together with theorems about
the specified behaviour.  Python floats are modelled as rationals, datetimes
as integers (seconds for timestamps, day numbers for dates), and fallible
code as `Except`.
-/

namespace Nunzio

/-- Python truthiness of an optional number: `None` and `0` are falsy. -/
def truthyQ (o : Option ℚ) : Bool :=
  match o with
  | none => false
  | some q => q != 0

/-- Python truthiness of an optional integer: `None` and `0` are falsy. -/
def truthyNat (o : Option Nat) : Bool :=
  match o with
  | none => false
  | some n => n != 0

/-- Python truthiness of an optional string: `None` and `""` are falsy. -/
def truthyStr (o : Option String) : Bool :=
  match o with
  | none => false
  | some s => s != ""

/-- An extracted exercise set as consumed by `core.py` (the pydantic
`ExerciseSet` fields that the core reads and writes). -/
structure ExerciseSet where
  exercise_name : String
  set_number : Nat
  reps : Option Nat
  weight : Option ℚ
  unit : Option String
  duration_minutes : Option ℚ
  distance : Option ℚ
  notes : Option String
  deriving DecidableEq, Repr

/-- Number of extracted `ExerciseSet` objects carrying a given exercise name
(the `Counter` built by `MessageHandler._expand_sets`). -/
def nameCount (exs : List ExerciseSet) (n : String) : Nat :=
  exs.countP (fun e => e.exercise_name == n)

/-- The body of the `for` loop of `MessageHandler._expand_sets`: a lone entry
with `set_number > 1` becomes `set_number` copies numbered 1.. ; everything
else passes through. -/
def expandOne (exs : List ExerciseSet) (ex : ExerciseSet) : List ExerciseSet :=
  if nameCount exs ex.exercise_name = 1 ∧ ex.set_number > 1 then
    (List.range ex.set_number).map (fun i => { ex with set_number := i + 1 })
  else [ex]

/-- `MessageHandler._expand_sets`. -/
def expandSets (exs : List ExerciseSet) : List ExerciseSet :=
  exs.flatMap (expandOne exs)

/-- Lower-cased whitespace tokens of a string (Python `s.lower().split()`):
split the lower-cased characters at whitespace and keep the non-empty
chunks. -/
def tokens (s : String) : List String :=
  (((s.data.map Char.toLower).splitOnP (fun c => c.isWhitespace)).filter
    (fun t => t ≠ [])).map (fun t => String.mk t)

/-- The token set of a string, as used by `ExerciseRepository.score_match`. -/
def tokenSet (s : String) : Finset String :=
  (tokens s).toFinset

/-- `ExerciseRepository.score_match`: word-overlap Jaccard similarity of the
two token sets, 0 when either token set is empty. -/
def score_match (query name : String) : ℚ :=
  let q := tokenSet query
  let n := tokenSet name
  if q = ∅ ∨ n = ∅ then 0
  else ((q ∩ n).card : ℚ) / ((q ∪ n).card : ℚ)

/-- Result record of `MessageHandler._compute_consistency`. -/
structure Consistency where
  count_30d : Nat
  count_90d : Nat
  avg_gap : Option ℚ
  streak : Nat
  days_since_last : Option ℤ
  deriving DecidableEq, Repr

/-- Python `sorted` on integer day numbers (ascending, stable). -/
def sortedAsc (l : List ℤ) : List ℤ :=
  l.insertionSort (fun a b => a ≤ b)

/-- Python `sorted(..., reverse=True)` on integer day numbers. -/
def sortedDesc (l : List ℤ) : List ℤ :=
  l.insertionSort (fun a b => b ≤ a)

/-- The streak loop of `_compute_consistency`: walk the dates newest first,
counting consecutive days backwards from `expected`, stopping at a gap. -/
def streakLoop : List ℤ → ℤ → Nat → Nat
  | [], _, streak => streak
  | d :: rest, expected, streak =>
    if d = expected then streakLoop rest (expected - 1) (streak + 1)
    else if d < expected then streak
    else streakLoop rest expected streak

/-- `MessageHandler._compute_consistency`, with dates as integer day numbers
and today's date passed explicitly. -/
def compute_consistency (today : ℤ) (dates_90 dates_30 : List ℤ) : Consistency :=
  let count_30d := dates_30.length
  let count_90d := dates_90.length
  let avg_gap : Option ℚ :=
    if count_90d ≥ 2 then
      let s := sortedAsc dates_90
      let gaps : List ℤ := (s.zip s.tail).map (fun p => p.2 - p.1)
      some (((gaps.sum : ℤ) : ℚ) / (gaps.length : ℚ))
    else none
  let streak :=
    if dates_90 ≠ [] then streakLoop (sortedDesc dates_90) today 0 else 0
  let days_since_last : Option ℤ :=
    match dates_90 with
    | [] => none
    | d :: ds => some (today - ds.foldl max d)
  { count_30d := count_30d, count_90d := count_90d, avg_gap := avg_gap,
    streak := streak, days_since_last := days_since_last }

/-- Substring test on character lists (Python `needle in hay`). -/
def containsSub (needle : List Char) : List Char → Bool
  | [] => needle.isPrefixOf []
  | c :: t => needle.isPrefixOf (c :: t) || containsSub needle t

/-- A just-logged set summary, one entry of the `logged_set_data` list built
by `MessageHandler._handle_log_workout`. -/
structure LoggedSet where
  exercise_id : Nat
  name : String
  weight : Option ℚ
  reps : Option Nat
  notes : Option String
  is_cardio : Bool
  deriving DecidableEq, Repr

/-- A historical `WorkoutSet` row as read by the commentary engine:
exercise reference, weight, and timestamp (in seconds). -/
structure HistSet where
  exercise_id : Nat
  weight : Option ℚ
  set_date : ℤ
  deriving DecidableEq, Repr

/-- Deduplicate the logged sets to the first occurrence of each exercise id,
preserving order (the `exercises` list of `_generate_log_comment`). -/
def dedupExercisesAux (seen : List Nat) : List LoggedSet → List LoggedSet
  | [] => []
  | s :: rest =>
    if s.exercise_id ∈ seen then dedupExercisesAux seen rest
    else s :: dedupExercisesAux (s.exercise_id :: seen) rest

/-- Unique exercises of a batch in first-occurrence order. -/
def dedupExercises (logged : List LoggedSet) : List LoggedSet :=
  dedupExercisesAux [] logged

/-- Python `max(iterable, default=0)`. -/
def listMaxD (l : List ℚ) (d : ℚ) : ℚ :=
  match l with
  | [] => d
  | x :: xs => xs.foldl max x

/-- Maximum truthy weight lifted in this batch for an exercise id
(`max_current` in `_generate_log_comment`). -/
def maxCurrent (logged : List LoggedSet) (id : Nat) : ℚ :=
  listMaxD ((logged.filter
    (fun s => s.exercise_id == id && truthyQ s.weight)).map
      (fun s => s.weight.getD 0)) 0

/-- The per-exercise history (`hist_by_ex` lookup): rows of `history` with
the given exercise id, in history order (newest first). -/
def histFor (hist : List HistSet) (id : Nat) : List HistSet :=
  hist.filter (fun ws => ws.exercise_id == id)

/-- Maximum non-null historical weight for an exercise id
(`max_historical` in `_generate_log_comment`). -/
def maxHistorical (hist : List HistSet) (id : Nat) : ℚ :=
  listMaxD ((histFor hist id).filterMap (fun ws => ws.weight)) 0

/-- Whole days elapsed between two timestamps in seconds
(Python `(now - most_recent_date).days`, flooring). -/
def gapDays (now d : ℤ) : ℤ :=
  Int.fdiv (now - d) 86400

/-- Heuristic 1 of `_generate_log_comment`: new PR. -/
def prCheck (logged : List LoggedSet) (hist : List HistSet) : Option String :=
  (dedupExercises logged).findSome? (fun ex =>
    if ex.is_cardio || !truthyQ ex.weight then none
    else
      if maxHistorical hist ex.exercise_id > 0 ∧
          maxCurrent logged ex.exercise_id > maxHistorical hist ex.exercise_id then
        some ("New PR on " ++ ex.name ++ "!")
      else none)

/-- Heuristic 2 of `_generate_log_comment`: first time logging an exercise. -/
def firstTimeCheck (logged : List LoggedSet) (hist : List HistSet) : Option String :=
  (dedupExercises logged).findSome? (fun ex =>
    if hist.all (fun ws => ws.exercise_id != ex.exercise_id) then
      some ("First time logging " ++ ex.name ++ ".")
    else none)

/-- Heuristic 3 of `_generate_log_comment`: back after a gap of > 3 days. -/
def gapCheck (logged : List LoggedSet) (hist : List HistSet) (now : ℤ) : Option String :=
  (dedupExercises logged).findSome? (fun ex =>
    match (histFor hist ex.exercise_id).map (fun ws => ws.set_date) with
    | [] => none
    | d :: ds =>
      let g := gapDays now (ds.foldl max d)
      if g > 3 then some ("Back at it after " ++ toString g ++ " days.") else none)

/-- Heuristic 4 of `_generate_log_comment`: weight increase over the most
recent historical set. -/
def weightIncreaseCheck (logged : List LoggedSet) (hist : List HistSet) : Option String :=
  (dedupExercises logged).findSome? (fun ex =>
    if ex.is_cardio || !truthyQ ex.weight then none
    else
      match histFor hist ex.exercise_id with
      | [] => none
      | mostRecent :: _ =>
        if truthyQ mostRecent.weight ∧ ex.weight.getD 0 > mostRecent.weight.getD 0 then
          some ("Moving up in weight on " ++ ex.name ++ ".")
        else none)

/-- Heuristic 5 of `_generate_log_comment`: pain words in the notes. -/
def painCheck (logged : List LoggedSet) : Option String :=
  if logged.any (fun s =>
      truthyStr s.notes &&
        ["pain", "sore", "hurt"].any
          (fun w => containsSub w.data ((s.notes.getD "").data.map Char.toLower))) then
    some ("Take it easy if the pain persists.")
  else none

/-- `MessageHandler._generate_log_comment`: the five heuristics in strict
priority order, first match wins; `none` for an empty batch. -/
def generate_log_comment (logged : List LoggedSet) (hist : List HistSet) (now : ℤ) :
    Option String :=
  if logged = [] then none
  else
    ((((prCheck logged hist).orElse (fun _ => firstTimeCheck logged hist)).orElse
        (fun _ => gapCheck logged hist now)).orElse
        (fun _ => weightIncreaseCheck logged hist)).orElse
        (fun _ => painCheck logged)

/-- The reps-defaulting loop of `MessageHandler._handle_log_workout`: walk the
extracted sets with their indices, skip sets with a (truthy) duration, give
rep-less sets 10 reps and record their indices. -/
def defaultRepsLoop : List ExerciseSet → Nat → List ExerciseSet × List Nat
  | [], _ => ([], [])
  | ex :: rest, i =>
    let (rest2, idxs) := defaultRepsLoop rest (i + 1)
    if truthyQ ex.duration_minutes then (ex :: rest2, idxs)
    else if !truthyNat ex.reps then ({ ex with reps := some 10 } :: rest2, i :: idxs)
    else (ex :: rest2, idxs)

/-- Reps defaulting applied to a whole extraction: the corrected set list and
the indices recorded as assumed (`defaulted_reps`). -/
def defaultReps (exs : List ExerciseSet) : List ExerciseSet × List Nat :=
  defaultRepsLoop exs 0

/-- A persisted `workout_sets` row as used by the batch operations, with the
joined exercise name carried inline (`none` when the exercise row is gone). -/
structure WorkoutRow where
  user_id : Nat
  batch_id : Nat
  exercise_id : Nat
  exercise_name : Option String
  set_number : Nat
  reps : Option Nat
  weight : Option ℚ
  weight_unit : Option String
  duration_minutes : Option ℚ
  distance : Option ℚ
  raw_exercise_name : String
  notes : Option String
  set_date : ℤ
  deriving DecidableEq, Repr

/-- `WorkoutSetRepository.get_next_batch_id`: max existing batch id for the
user (0 when none) plus one.  The table state is the row list. -/
def getNextBatchId (st : List WorkoutRow) (uid : Nat) : Nat :=
  (((st.filter (fun r => r.user_id == uid)).map (fun r => r.batch_id)).foldl max 0) + 1

/-- `WorkoutSetRepository.delete_batch`: fetch the rows matching both the
batch id and the user id, and remove them only when some were found.
Returns (fetched rows, new table state). -/
def deleteBatch (st : List WorkoutRow) (bid uid : Nat) :
    List WorkoutRow × List WorkoutRow :=
  let sets := st.filter (fun r => r.batch_id == bid && r.user_id == uid)
  if sets ≠ [] then
    (sets, st.filter (fun r => !(r.batch_id == bid && r.user_id == uid)))
  else (sets, st)

/-- Display name of a deleted row (`s.exercise.name` or a placeholder). -/
def rowName (r : WorkoutRow) : String :=
  match r.exercise_name with
  | some n => n
  | none => "exercise #" ++ toString r.exercise_id

/-- First-occurrence deduplication of a string list (the `exercises`
accumulation loop of `_handle_delete_workout`). -/
def firstDedup (seen : List String) : List String → List String
  | [] => []
  | x :: rest =>
    if x ∈ seen then firstDedup seen rest
    else x :: firstDedup (x :: seen) rest

/-- Renders a day number the way `strftime` with an abbreviated-month format
would; the claims never inspect its output. -/
def fmtMonthDay (d : ℤ) : String :=
  "day " ++ toString d

/-- The not-found reply of `_handle_delete_workout`. -/
def notFoundMsg (bid : Nat) : String :=
  "Workout #" ++ toString bid ++ " not found (or not yours)."

/-- The by-id branch of `MessageHandler._handle_delete_workout` (after the
batch id has been parsed from the message): delete scoped to
(batch id, user id), not-found reply when nothing matched, else a summary
built from the rows fetched before deletion.  Returns (reply, new state). -/
def handleDeleteById (st : List WorkoutRow) (bid uid : Nat) :
    String × List WorkoutRow :=
  match deleteBatch st bid uid with
  | (deleted, st2) =>
    match deleted with
    | [] => (notFoundMsg bid, st2)
    | d0 :: _ =>
      let names := firstDedup [] (deleted.map rowName)
      let exStr := if names = [] then "no exercises" else String.intercalate ", " names
      ("Deleted workout #" ++ toString bid ++ " (" ++ fmtMonthDay d0.set_date ++ "): " ++
        exStr ++ " — " ++ toString deleted.length ++ " sets removed.", st2)

/-- Word characters for the regex word boundary `\b` (alphanumeric or
underscore). -/
def isWordChar (c : Char) : Bool :=
  c.isAlphanum || c == '_'

/-- Case-insensitive literal match: `pat` is given lower-cased; on success
returns the remaining input. -/
def litMatch : List Char → List Char → Option (List Char)
  | [], rest => some rest
  | _ :: _, [] => none
  | p :: ps, c :: cs => if c.toLower == p then litMatch ps cs else none

/-- The trigger-phrase alternatives of `_parse_repeat_modifiers`, in the
order they appear in the pattern. -/
def triggerAlts : List (List Char) :=
  [("same as last time").data, ("repeat last").data, ("same thing").data,
   ("again").data, ("repeat").data]

/-- Try the trigger alternatives at the current position, including the
trailing `\b` (all alternatives end in a word character).  Returns (matched
text, rest). -/
def tryTrigger (l : List Char) : Option (List Char × List Char) :=
  triggerAlts.findSome? (fun alt =>
    match litMatch alt l with
    | none => none
    | some rest =>
      let bOk := match rest with
        | [] => true
        | c :: _ => !isWordChar c
      if bOk then some (l.take alt.length, rest) else none)

/-- Does `\b` hold between the previous character and a word character? -/
def boundaryBefore (prev : Option Char) : Bool :=
  match prev with
  | none => true
  | some p => !isWordChar p

/-- The scanning loop of `re.sub` for the trigger pattern: at each position
where the leading `\b` holds, try the alternatives; matches are replaced by
the empty string and scanning resumes after them. -/
def stripTriggersGo : Nat → Option Char → List Char → List Char
  | 0, _, l => l
  | _ + 1, _, [] => []
  | fuel + 1, prev, c :: rest =>
    match (if boundaryBefore prev then tryTrigger (c :: rest) else none) with
    | some (matched, restAfter) => stripTriggersGo fuel matched.getLast? restAfter
    | none => c :: stripTriggersGo fuel (some c) rest

/-- The characters stripped by `.strip(" ,.-;:")`. -/
def stripCharsSet : List Char :=
  [' ', ',', '.', '-', ';', ':']

/-- Python `s.strip(" ,.-;:")`. -/
def stripBoth (l : List Char) : List Char :=
  ((l.dropWhile (fun c => stripCharsSet.contains c)).reverse.dropWhile
    (fun c => stripCharsSet.contains c)).reverse

/-- Nat value of a digit run. -/
def digitsToNat (l : List Char) : Nat :=
  l.foldl (fun a c => a * 10 + (c.toNat - 48)) 0

/-- Value of a matched number group (`float(w)`): digits with an optional
fractional part. -/
def parseNum (l : List Char) : ℚ :=
  let ip := l.takeWhile Char.isDigit
  match l.drop ip.length with
  | '.' :: fr => (digitsToNat ip : ℚ) + (digitsToNat fr : ℚ) / ((10 : ℚ) ^ fr.length)
  | _ => (digitsToNat ip : ℚ)

/-- Greedy digit run (`\d+`); fails on zero digits. -/
def matchDigits (l : List Char) : Option (List Char × List Char) :=
  let ds := l.takeWhile Char.isDigit
  if ds = [] then none else some (ds, l.drop ds.length)

/-- Optional fractional part `(?:\.\d+)?`, greedy: the candidate remainders
in backtracking order (with the fraction first, then without). -/
def fractionCands (num : List Char) (l : List Char) : List (List Char × List Char) :=
  match l with
  | '.' :: rest =>
    let fr := rest.takeWhile Char.isDigit
    if fr ≠ [] then
      (num ++ '.' :: fr, rest.drop fr.length) :: [(num, l)]
    else [(num, l)]
  | _ => [(num, l)]

/-- `\s*` candidates in greedy backtracking order: longest run first. -/
def spaceCands (l : List Char) : List (Nat × List Char) :=
  let ws := l.takeWhile Char.isWhitespace
  ((List.range (ws.length + 1)).reverse).map (fun k => (k, l.drop k))

/-- Unit alternatives `(lbs?|kg)` in the pattern's preference order,
each with the trailing `\b` checked by the caller. -/
def unitAlts : List (List Char) :=
  [("lbs").data, ("lb").data, ("kg").data]

/-- Try one unit alternative at the current position, returning the unit
text as matched (original case) and the rest. -/
def tryUnit (l : List Char) : List (List Char × List Char) :=
  unitAlts.filterMap (fun alt =>
    match litMatch alt l with
    | none => none
    | some rest => some (l.take alt.length, rest))

/-- Does `\b` hold between the last consumed character and the rest? -/
def boundaryAfter (lastC : Option Char) (rest : List Char) : Bool :=
  let lw := match lastC with
    | none => false
    | some c => isWordChar c
  let rw := match rest with
    | [] => false
    | c :: _ => isWordChar c
  lw != rw

/-- After the number group of a weight alternative: `\s*` then an optional or
mandatory unit group then `\b`, explored in the regex backtracking order.
Returns (consumed length after the number, unit capture). -/
def weightTail (lastNum : Char) (l : List Char) (unitOptional : Bool) :
    Option (Nat × Option (List Char)) :=
  (spaceCands l).findSome? (fun sc =>
    match sc with
    | (k, afterSp) =>
      let lastSp := if k = 0 then some lastNum else (l.take k).getLast?
      let withUnit := (tryUnit afterSp).findSome? (fun uc =>
        match uc with
        | (u, afterU) =>
          if boundaryAfter u.getLast? afterU then some (k + u.length, some u) else none)
      match withUnit with
      | some r => some r
      | none =>
        if unitOptional ∧ boundaryAfter lastSp afterSp then some (k, none) else none)

/-- Weight alternative 1: `(?:at|for|@)\s*(\d+(?:\.\d+)?)\s*(lbs?|kg)?\b`.
Returns (consumed length, number group, unit group). -/
def matchWeightAlt1 (l : List Char) : Option (Nat × List Char × Option (List Char)) :=
  [("at").data, ("for").data, ("@").data].findSome? (fun kw =>
    match litMatch kw l with
    | none => none
    | some rest1 =>
      let ws := rest1.takeWhile Char.isWhitespace
      let rest2 := rest1.drop ws.length
      match matchDigits rest2 with
      | none => none
      | some (ds, rest3) =>
        (fractionCands ds rest3).findSome? (fun fc =>
          match fc with
          | (num, rest4) =>
            match num.getLast? with
            | none => none
            | some lastNum =>
              match weightTail lastNum rest4 true with
              | none => none
              | some (tailLen, u) =>
                some (kw.length + ws.length + num.length + tailLen, num, u)))

/-- Weight alternative 2: `(\d+(?:\.\d+)?)\s*(lbs?|kg)\b`. -/
def matchWeightAlt2 (l : List Char) : Option (Nat × List Char × Option (List Char)) :=
  match matchDigits l with
  | none => none
  | some (ds, rest1) =>
    (fractionCands ds rest1).findSome? (fun fc =>
      match fc with
      | (num, rest2) =>
        match num.getLast? with
        | none => none
        | some lastNum =>
          match weightTail lastNum rest2 false with
          | none => none
          | some (tailLen, u) => some (num.length + tailLen, num, u))

/-- `re.search` for the weight pattern: leftmost position wins, alternative 1
preferred over alternative 2.  Returns (start, end, number, unit). -/
def weightSearchGo (i : Nat) : List Char → Option (Nat × Nat × List Char × Option (List Char))
  | [] => none
  | c :: rest =>
    match matchWeightAlt1 (c :: rest) with
    | some (len, num, u) => some (i, i + len, num, u)
    | none =>
      match matchWeightAlt2 (c :: rest) with
      | some (len, num, u) => some (i, i + len, num, u)
      | none => weightSearchGo (i + 1) rest

/-- The times pattern alternatives, at one position:
`\btwice\b|\bx\s*(\d+)\b|(\d+)\s*x\b|(\d+)\s+times?\b`.
Returns (consumed length, repetition count). -/
def matchTimesAt (prev : Option Char) (l : List Char) : Option (Nat × Nat) :=
  let alt1 :=
    if boundaryBefore prev then
      match litMatch ("twice").data l with
      | none => none
      | some rest =>
        if boundaryAfter (some 'e') rest then some (5, 2) else none
    else none
  match alt1 with
  | some r => some r
  | none =>
  let alt2 :=
    if boundaryBefore prev then
      match litMatch ("x").data l with
      | none => none
      | some rest1 =>
        let ws := rest1.takeWhile Char.isWhitespace
        let rest2 := rest1.drop ws.length
        match matchDigits rest2 with
        | none => none
        | some (ds, rest3) =>
          if boundaryAfter ds.getLast? rest3 then
            some (1 + ws.length + ds.length, digitsToNat ds)
          else none
    else none
  match alt2 with
  | some r => some r
  | none =>
  let alt3 :=
    match matchDigits l with
    | none => none
    | some (ds, rest1) =>
      let ws := rest1.takeWhile Char.isWhitespace
      let rest2 := rest1.drop ws.length
      match litMatch ("x").data rest2 with
      | none => none
      | some rest3 =>
        if boundaryAfter (some 'x') rest3 then
          some (ds.length + ws.length + 1, digitsToNat ds)
        else none
  match alt3 with
  | some r => some r
  | none =>
    match matchDigits l with
    | none => none
    | some (ds, rest1) =>
      let ws := rest1.takeWhile Char.isWhitespace
      if ws = [] then none
      else
        let rest2 := rest1.drop ws.length
        match litMatch ("times").data rest2 with
        | some rest3 =>
          if boundaryAfter (some 's') rest3 then
            some (ds.length + ws.length + 5, digitsToNat ds)
          else
            match litMatch ("time").data rest2 with
            | some rest4 =>
              if boundaryAfter (some 'e') rest4 then
                some (ds.length + ws.length + 4, digitsToNat ds)
              else none
            | none => none
        | none =>
          match litMatch ("time").data rest2 with
          | some rest4 =>
            if boundaryAfter (some 'e') rest4 then
              some (ds.length + ws.length + 4, digitsToNat ds)
            else none
          | none => none

/-- `re.search` for the times pattern.  Returns (start, end, count). -/
def timesSearchGo (i : Nat) (prev : Option Char) :
    List Char → Option (Nat × Nat × Nat)
  | [] => none
  | c :: rest =>
    match matchTimesAt prev (c :: rest) with
    | some (len, t) => some (i, i + len, t)
    | none => timesSearchGo (i + 1) (some c) rest

/-- The parsed repeat modifiers (`_parse_repeat_modifiers` result dict). -/
structure RepeatMods where
  weight : Option ℚ
  weight_unit : Option String
  times : Nat
  note : Option String
  deriving DecidableEq, Repr

/-- `MessageHandler._parse_repeat_modifiers`: strip the trigger phrases,
recognise an optional weight override and an optional repetition count, and
keep the remaining free text as the note. -/
def parseRepeatModifiers (message : String) : RepeatMods :=
  let raw := message.data
  let stripped := stripBoth (stripTriggersGo (raw.length + 1) none raw)
  let wm := weightSearchGo 0 stripped
  let weight : Option ℚ :=
    match wm with
    | none => none
    | some (_, _, num, _) => some (parseNum num)
  let weight_unit : Option String :=
    match wm with
    | none => none
    | some (_, _, _, u) =>
      some (match u with
        | some uc => if (uc.map Char.toLower).head? = some 'k' then "kg" else "lbs"
        | none => "lbs")
  let note1 :=
    match wm with
    | none => stripped
    | some (s, e, _, _) => stripped.take s ++ stripped.drop e
  let tm := timesSearchGo 0 none note1
  let times :=
    match tm with
    | none => 1
    | some (_, _, t) => t
  let note2 :=
    match tm with
    | none => note1
    | some (s, e, _) => note1.take s ++ note1.drop e
  let noteStr := stripBoth note2
  { weight := weight, weight_unit := weight_unit, times := times,
    note := if noteStr = [] then none else some (String.mk noteStr) }

/-- `WorkoutSetRepository.get_latest_batch_for_user`: all rows of the user's
maximal batch id, ordered by set number. -/
def getLatestBatchForUser (st : List WorkoutRow) (uid : Nat) : List WorkoutRow :=
  let rows := st.filter (fun r => r.user_id == uid)
  match rows.map (fun r => r.batch_id) with
  | [] => []
  | b :: bs =>
    let mx := bs.foldl max b
    (rows.filter (fun r => r.batch_id == mx)).insertionSort
      (fun a b => a.set_number ≤ b.set_number)

/-- Models the Python rendering of the float values occurring in replies. -/
def floatRepr (q : ℚ) : String :=
  if q.den = 1 then toString q.num ++ ".0"
  else toString q.num ++ "/" ++ toString q.den

/-- Python string interpolation of an optional string (`None` when absent). -/
def optStrRepr (o : Option String) : String :=
  match o with
  | some s => s
  | none => "None"

/-- Python string interpolation of an optional integer. -/
def optNatRepr (o : Option Nat) : String :=
  match o with
  | some n => toString n
  | none => "None"

/-- One confirmation line of `_handle_repeat_last`. -/
def repeatLine (name : String) (old : WorkoutRow) (useWeight : Option ℚ)
    (useUnit : Option String) (note : Option String) : String :=
  let base :=
    if truthyQ old.duration_minutes then
      let parts := [floatRepr (old.duration_minutes.getD 0) ++ " min"] ++
        (if truthyQ old.distance then [floatRepr (old.distance.getD 0) ++ " mi"] else [])
      "  " ++ name ++ ": " ++ String.intercalate ", " parts
    else
      let weightStr :=
        if truthyQ useWeight then floatRepr (useWeight.getD 0) ++ " " ++ optStrRepr useUnit
        else "bodyweight"
      "  " ++ name ++ ": set " ++ toString old.set_number ++ " - " ++
        optNatRepr old.reps ++ " reps @ " ++ weightStr
  if truthyStr note then base ++ " — note: " ++ (note.getD "") else base

/-- `MessageHandler._handle_repeat_last`.  The Python local `new_batch_id`
is modelled as an `Option Nat` that the repetition loop assigns; the verbose
header reads it, and reading it while still unassigned is the
`UnboundLocalError` case, modelled as `Except.error`. -/
def handleRepeatLast (verbose : Bool) (message : String) (uid : Nat)
    (st : List WorkoutRow) (now : ℤ) : Except String (String × List WorkoutRow) :=
  let mods := parseRepeatModifiers message
  match getLatestBatchForUser st uid with
  | [] => .ok ("Nothing to repeat — no previous workouts found.", st)
  | first :: restSets =>
    let oldBatchId := first.batch_id
    let sortedSets := (first :: restSets).insertionSort
      (fun a b => a.exercise_id < b.exercise_id ∨
        (a.exercise_id = b.exercise_id ∧ a.set_number ≤ b.set_number))
    let step := fun (acc : List WorkoutRow × Option Nat × List String) (_ : Nat) =>
      match acc with
      | (stAcc, _, lines) =>
        let nb := getNextBatchId stAcc uid
        let inner := sortedSets.foldl (fun (p : List WorkoutRow × List String) old =>
          let useWeight := if mods.weight ≠ none then mods.weight else old.weight
          let useUnit := if mods.weight_unit ≠ none then mods.weight_unit else old.weight_unit
          let newRow : WorkoutRow :=
            { user_id := uid, batch_id := nb, exercise_id := old.exercise_id,
              exercise_name := old.exercise_name, set_number := old.set_number,
              reps := old.reps, weight := useWeight, weight_unit := useUnit,
              duration_minutes := old.duration_minutes, distance := old.distance,
              raw_exercise_name := old.raw_exercise_name, notes := mods.note,
              set_date := now }
          (p.1 ++ [newRow],
           p.2 ++ [repeatLine (rowName old) old useWeight useUnit mods.note]))
          (stAcc, lines)
        (inner.1, some nb, inner.2)
    match (List.range mods.times).foldl step (st, none, []) with
    | (stFinal, nbOpt, lines) =>
      if verbose then
        match nbOpt with
        | none =>
          .error ("UnboundLocalError: local variable new_batch_id referenced before assignment")
        | some nb =>
          let h0 := "Repeated #" ++ toString oldBatchId ++ " → #" ++ toString nb ++ ":"
          let header :=
            if mods.times > 1 then
              "Repeated #" ++ toString oldBatchId ++ " x" ++ toString mods.times ++ ":"
            else h0
          .ok (String.intercalate "\n" (header :: lines), stFinal)
      else
        let header :=
          if mods.times > 1 then "Repeated last workout x" ++ toString mods.times ++ ":"
          else "Repeated last workout:"
        .ok (String.intercalate "\n" (header :: lines), stFinal)

/-- A template persisted row for concrete test states. -/
def mkRow (u b : Nat) : WorkoutRow :=
  { user_id := u, batch_id := b, exercise_id := 1,
    exercise_name := some "Bench Press", set_number := 1, reps := some 10,
    weight := some 135, weight_unit := some "lbs", duration_minutes := none,
    distance := none, raw_exercise_name := "bench press", notes := none,
    set_date := 0 }

/-- Junk element for safe list indexing in statements. -/
def dfltSet : ExerciseSet :=
  { exercise_name := "", set_number := 0, reps := none, weight := none,
    unit := none, duration_minutes := none, distance := none, notes := none }

/-- The effect of one pass of the reps-defaulting loop on one set. -/
def repsDefaultOne (ex : ExerciseSet) : ExerciseSet :=
  if truthyQ ex.duration_minutes then ex
  else if !truthyNat ex.reps then { ex with reps := some 10 } else ex

/-- Does the reps-defaulting loop flag position `j` as assumed? -/
def assumedAt (exs : List ExerciseSet) (j : Nat) : Bool :=
  !truthyQ (exs.getD j dfltSet).duration_minutes &&
    !truthyNat (exs.getD j dfltSet).reps

/-- A strength set without a rep count, for concrete instances. -/
def benchNoReps : ExerciseSet :=
  { dfltSet with exercise_name := "Bench Press", weight := some 100 }

/-- A lone three-set extraction entry, for concrete instances. -/
def curlThree : ExerciseSet :=
  { dfltSet with exercise_name := "Curl", set_number := 3 }

/-- A correctly enumerated single set, for concrete instances. -/
def squatOne : ExerciseSet :=
  { dfltSet with exercise_name := "Squat", set_number := 1 }

/-- A just-logged strength set, for concrete instances. -/
def prLogged : LoggedSet :=
  { exercise_id := 1, name := "Bench Press", weight := some 150,
    reps := some 10, notes := none, is_cardio := false }

/-- A historical lighter set of the same exercise, for concrete instances. -/
def prHist : HistSet :=
  { exercise_id := 1, weight := some 100, set_date := 0 }

/-- An initial accumulator is below the result of a `foldl max`. -/
theorem foldl_max_init_le (l : List Nat) (a : Nat) : a ≤ l.foldl max a := by
  induction l generalizing a with
  | nil => exact Nat.le_refl a
  | cons b t ih => exact Nat.le_trans (Nat.le_max_left a b) (ih (max a b))

/-- Every member of a list is below its `foldl max`. -/
theorem mem_le_foldl_max (l : List Nat) : ∀ (a x : Nat), x ∈ l → x ≤ l.foldl max a := by
  induction l with
  | nil => intro a x hx; cases hx
  | cons b t ih =>
    intro a x hx
    rcases List.mem_cons.mp hx with rfl | hxt
    · exact Nat.le_trans (Nat.le_max_right a x) (foldl_max_init_le t (max a x))
    · exact ih (max a b) x hxt

/-- Claim C7: repeat-modifier parsing on the three specified messages —
the bare trigger yields no overrides; a weight phrase plus a count phrase
yields weight 35 lbs and count 2; trailing free text becomes the note. -/
theorem C7_repeat_modifier_parsing :
    parseRepeatModifiers ("again") =
      { weight := none, weight_unit := none, times := 1, note := none } ∧
    parseRepeatModifiers ("again at 35 lbs twice") =
      { weight := some 35, weight_unit := some "lbs", times := 2, note := none } ∧
    parseRepeatModifiers ("again, elbow feels better") =
      { weight := none, weight_unit := none, times := 1,
        note := some "elbow feels better" } :=
  ⟨by decide, by decide, by decide⟩

/-- Claim C9 fails on the code: for a user with a prior batch, the message
"again x0" parses to a repetition count of 0, the repetition loop never
assigns the new batch id, and the verbose header then reads the unassigned
local — the handler raises instead of returning a reply string. -/
theorem C9_repeat_unbound_local :
    (parseRepeatModifiers ("again x0")).times = 0 ∧
    handleRepeatLast true ("again x0") 1 [mkRow 1 1] 0 =
      .error ("UnboundLocalError: local variable new_batch_id referenced before assignment") :=
  ⟨by decide, by rfl⟩

/-- Claim C5 counterexample: after logging batches 1 and 2 and deleting
batch 2, the allocator hands out the deleted id 2 again, so a deleted
batch id is reused. -/
theorem C5_batch_id_reuse :
    getNextBatchId [] 1 = 1 ∧
    getNextBatchId [mkRow 1 1] 1 = 2 ∧
    (deleteBatch [mkRow 1 1, mkRow 1 2] 2 1).2 = [mkRow 1 1] ∧
    getNextBatchId ((deleteBatch [mkRow 1 1, mkRow 1 2] 2 1).2) 1 = 2 := by
  refine ⟨by decide, by decide, by decide, by decide⟩

/-- Claim C5, amended: batch ids start at 1 for a fresh user, and every
allocated id strictly exceeds every batch id currently stored for that user
(so ids increase monotonically as long as the maximal batch is not deleted;
a deleted maximal id can be handed out again). -/
theorem C5_next_batch_id_fresh_and_monotone :
    (∀ u : Nat, getNextBatchId [] u = 1) ∧
    ∀ (st : List WorkoutRow) (u : Nat) (r : WorkoutRow),
      r ∈ st → r.user_id = u → r.batch_id < getNextBatchId st u := by
  constructor
  · intro u; rfl
  · intro st u r hr hu
    have hf : r ∈ st.filter (fun r => r.user_id == u) := by
      simp [List.mem_filter, hr, hu]
    have hm : r.batch_id ∈ (st.filter (fun r => r.user_id == u)).map
        (fun r => r.batch_id) := List.mem_map_of_mem _ hf
    exact Nat.lt_succ_of_le (mem_le_foldl_max _ 0 _ hm)

/-- Witness for the amended C5 theorem at a concrete state. -/
theorem C5_next_batch_id_witness :
    (mkRow 1 3).batch_id < getNextBatchId [mkRow 1 3] 1 :=
  C5_next_batch_id_fresh_and_monotone.2 [mkRow 1 3] 1 (mkRow 1 3)
    (by decide) (by decide)

/-- Claim C4 counterexample: a whitespace-only string is non-empty, yet its
token set is empty, so it scores 0 — not 1 — against itself. -/
theorem C4_whitespace_self_score :
    ((" ") ≠ "") ∧ score_match (" ") (" ") = 0 ∧ score_match (" ") (" ") ≠ 1 :=
  ⟨by decide, by decide, by decide⟩

/-- Claim C4, amended: the score is |intersection| / |union| of the
lower-cased whitespace-token sets; any string with a non-empty token set
scores 1 against itself in any letter case; the score is 0 whenever either
token set is empty; "chest pull" vs "Chest Press" scores below 1/2; and
"dumbbell fly" vs "Dumbbell Flyes" scores strictly between 0 and 1. -/
theorem C4_token_overlap_score :
    (∀ s t : String, tokens s ≠ [] →
      s.data.map Char.toLower = t.data.map Char.toLower → score_match s t = 1) ∧
    (∀ s t : String, tokenSet s = ∅ ∨ tokenSet t = ∅ → score_match s t = 0) ∧
    score_match ("chest pull") ("Chest Press") < 1/2 ∧
    (0 < score_match ("dumbbell fly") ("Dumbbell Flyes") ∧
      score_match ("dumbbell fly") ("Dumbbell Flyes") < 1) := by
  refine ⟨?_, ?_, ?_, ?_⟩
  · intro s t hne heq
    have hts : tokens t = tokens s := by
      unfold tokens; rw [heq]
    have hset : tokenSet t = tokenSet s := by
      unfold tokenSet; rw [hts]
    have hq : tokenSet s ≠ ∅ := by
      unfold tokenSet
      simpa [List.toFinset_eq_empty_iff] using hne
    have hc : ((tokenSet s).card : ℚ) ≠ 0 := by
      have h0 : (tokenSet s).card ≠ 0 := fun h => hq (Finset.card_eq_zero.mp h)
      exact_mod_cast h0
    unfold score_match
    rw [hset]
    rw [if_neg (by simp [hq])]
    simp only [Finset.inter_self, Finset.union_self]
    exact div_self hc
  · intro s t h
    unfold score_match
    rw [if_pos h]
  · have h1 : (tokenSet ("chest pull") ∩ tokenSet ("Chest Press")).card = 1 := by decide
    have h2 : (tokenSet ("chest pull") ∪ tokenSet ("Chest Press")).card = 3 := by decide
    have h3 : ¬(tokenSet ("chest pull") = ∅ ∨ tokenSet ("Chest Press") = ∅) := by
      simp [show tokenSet ("chest pull") ≠ ∅ from by decide,
        show tokenSet ("Chest Press") ≠ ∅ from by decide]
    simp only [score_match]
    rw [if_neg h3, h1, h2]
    norm_num
  · have h1 : (tokenSet ("dumbbell fly") ∩ tokenSet ("Dumbbell Flyes")).card = 1 := by decide
    have h2 : (tokenSet ("dumbbell fly") ∪ tokenSet ("Dumbbell Flyes")).card = 3 := by decide
    have h3 : ¬(tokenSet ("dumbbell fly") = ∅ ∨ tokenSet ("Dumbbell Flyes") = ∅) := by
      simp [show tokenSet ("dumbbell fly") ≠ ∅ from by decide,
        show tokenSet ("Dumbbell Flyes") ≠ ∅ from by decide]
    constructor
    · simp only [score_match]
      rw [if_neg h3, h1, h2]
      norm_num
    · simp only [score_match]
      rw [if_neg h3, h1, h2]
      norm_num

/-- Witness for the amended C4 theorem: a case-different self-match scores
1, and an empty-token side scores 0. -/
theorem C4_token_overlap_witness :
    score_match ("Bench") ("bench") = 1 ∧ score_match ("") ("x") = 0 :=
  ⟨C4_token_overlap_score.1 ("Bench") ("bench") (by decide) (by decide),
   C4_token_overlap_score.2.1 ("") ("x") (Or.inl (by decide))⟩

/-- Streak loop step: the expected day is found, so the streak grows. -/
theorem streakLoop_hit (d : ℤ) (rest : List ℤ) (s : Nat) :
    streakLoop (d :: rest) d s = streakLoop rest (d - 1) (s + 1) := by
  simp [streakLoop]

/-- Streak loop step: a day strictly before the expected one breaks the
streak. -/
theorem streakLoop_break (d e : ℤ) (rest : List ℤ) (s : Nat) (h : d < e) :
    streakLoop (d :: rest) e s = s := by
  simp [streakLoop, h, h.ne]

/-- Claim C3: consistency metrics — empty input gives zero counts, zero
streak and null gap/recency; a single date equal to today gives streak 1,
days-since-last 0 and null average gap; three consecutive days ending today
give streak 3 and average gap 1; and with today, yesterday and earlier dates
beyond a gap of more than one day the streak is 2, not counting the dates
before the gap. -/
theorem C3_consistency (today e1 e2 : ℤ) :
    (compute_consistency today [] [] =
      { count_30d := 0, count_90d := 0, avg_gap := none, streak := 0,
        days_since_last := none }) ∧
    (compute_consistency today [today] [today] =
      { count_30d := 1, count_90d := 1, avg_gap := none, streak := 1,
        days_since_last := some 0 }) ∧
    ((compute_consistency today [today - 2, today - 1, today]
        [today - 2, today - 1, today]).streak = 3 ∧
      (compute_consistency today [today - 2, today - 1, today]
        [today - 2, today - 1, today]).avg_gap = some 1) ∧
    (e2 < e1 → e1 < today - 2 →
      (compute_consistency today [e2, e1, today - 1, today]
        [today - 1, today]).streak = 2) := by
  refine ⟨rfl, ?_, ?_, ?_⟩
  · simp [compute_consistency, sortedDesc, List.insertionSort, List.orderedInsert,
      streakLoop]
  · have hd : sortedDesc [today - 2, today - 1, today] = [today, today - 1, today - 2] := by
      simp [sortedDesc, List.insertionSort, List.orderedInsert,
        show ¬(today ≤ today - 1) from by omega, show ¬(today ≤ today - 2) from by omega,
        show ¬(today - 1 ≤ today - 2) from by omega]
    have ha : sortedAsc [today - 2, today - 1, today] = [today - 2, today - 1, today] := by
      simp [sortedAsc, List.insertionSort, List.orderedInsert,
        show today - 1 ≤ today from by omega, show today - 2 ≤ today - 1 from by omega]
    have hstreak : streakLoop [today, today - 1, today - 2] today 0 = 3 := by
      rw [streakLoop_hit, streakLoop_hit,
        show today - 2 = today - 1 - 1 from by ring, streakLoop_hit]
      rfl
    constructor
    · simp [compute_consistency, hd, hstreak]
    · simp [compute_consistency, ha,
        show (today - 1) - (today - 2) = 1 from by ring,
        show today - (today - 1) = 1 from by ring]
  · intro h21 h1
    have hd : sortedDesc [e2, e1, today - 1, today] = [today, today - 1, e1, e2] := by
      simp [sortedDesc, List.insertionSort, List.orderedInsert,
        show ¬(today ≤ today - 1) from by omega,
        show ¬(today ≤ e1) from by omega, show ¬(today - 1 ≤ e1) from by omega,
        show ¬(today ≤ e2) from by omega, show ¬(today - 1 ≤ e2) from by omega,
        show ¬(e1 ≤ e2) from by omega]
    have hstreak : streakLoop [today, today - 1, e1, e2] today 0 = 2 := by
      rw [streakLoop_hit, streakLoop_hit, streakLoop_break]
      omega
    simp [compute_consistency, hd, hstreak]

/-- Witness for the C3 theorem at concrete dates. -/
theorem C3_consistency_witness :
    (compute_consistency 0 [-7, -4, 0 - 1, 0] [0 - 1, 0]).streak = 2 :=
  (C3_consistency 0 (-4) (-7)).2.2.2 (by norm_num) (by norm_num)

/-- Closed form of the set list produced by the reps-defaulting loop. -/
theorem defaultRepsLoop_fst (exs : List ExerciseSet) :
    ∀ base : Nat, (defaultRepsLoop exs base).1 = exs.map repsDefaultOne := by
  induction exs with
  | nil => intro base; rfl
  | cons ex rest ih =>
    intro base
    cases h : defaultRepsLoop rest (base + 1) with
    | mk r2 idxs =>
      have h1 : r2 = rest.map repsDefaultOne := by
        have h2 := ih (base + 1)
        rw [h] at h2
        exact h2
      by_cases hd : truthyQ ex.duration_minutes
      · simp [defaultRepsLoop, h, hd, repsDefaultOne, h1]
      · by_cases hr : truthyNat ex.reps
        · simp [defaultRepsLoop, h, hd, hr, repsDefaultOne, h1]
        · simp [defaultRepsLoop, h, hd, hr, repsDefaultOne, h1]

/-- Closed form of the assumed-index list produced by the reps-defaulting
loop. -/
theorem defaultRepsLoop_snd (exs : List ExerciseSet) :
    ∀ base : Nat, (defaultRepsLoop exs base).2 =
      ((List.range exs.length).filter (fun j => assumedAt exs j)).map
        (fun j => base + j) := by
  induction exs with
  | nil => intro base; rfl
  | cons ex rest ih =>
    intro base
    cases h : defaultRepsLoop rest (base + 1) with
    | mk r2 idxs =>
      have h1 : idxs = ((List.range rest.length).filter
          (fun j => assumedAt rest j)).map (fun j => base + 1 + j) := by
        have h2 := ih (base + 1)
        rw [h] at h2
        exact h2
      have hcond : ∀ j, assumedAt (ex :: rest) (j + 1) = assumedAt rest j := by
        intro j; simp [assumedAt]
      have hf : ((fun j => assumedAt (ex :: rest) j) ∘ Nat.succ) =
          (fun j => assumedAt rest j) := funext (fun j => by simpa using hcond j)
      have hg : ((fun j => base + j) ∘ Nat.succ) = (fun j => base + 1 + j) :=
        funext (fun j => by simp [Function.comp]; omega)
      have hzero : assumedAt (ex :: rest) 0 =
          (!truthyQ ex.duration_minutes && !truthyNat ex.reps) := by
        simp [assumedAt]
      rw [List.length_cons, List.range_succ_eq_map]
      by_cases hd : truthyQ ex.duration_minutes
      · simp [defaultRepsLoop, h, hd, h1, hzero, List.filter_map, List.map_map, hf, hg]
      · by_cases hr : truthyNat ex.reps
        · simp [defaultRepsLoop, h, hd, hr, h1, hzero, List.filter_map,
            List.map_map, hf, hg]
        · simp [defaultRepsLoop, h, hd, hr, h1, hzero, List.filter_map,
            List.map_map, hf, hg]

/-- Claim C8: reps defaulting keeps the list length, flags only real
indices, assigns 10 reps to exactly the sets that lack a (truthy) duration
and have a null or zero rep count — flagging exactly their indices and
changing only the reps field — while a set with a duration present is
untouched and never flagged, and a positive explicit rep count is never
altered. -/
theorem C8_reps_defaulting (exs : List ExerciseSet) :
    (defaultReps exs).1.length = exs.length ∧
    (∀ j ∈ (defaultReps exs).2, j < exs.length) ∧
    ∀ i : Nat, i < exs.length →
      (i ∈ (defaultReps exs).2 ↔
        (¬ truthyQ (exs.getD i dfltSet).duration_minutes ∧
          ¬ truthyNat (exs.getD i dfltSet).reps)) ∧
      ((¬ truthyQ (exs.getD i dfltSet).duration_minutes ∧
          ¬ truthyNat (exs.getD i dfltSet).reps) →
        (defaultReps exs).1.getD i dfltSet = { exs.getD i dfltSet with reps := some 10 }) ∧
      (truthyQ (exs.getD i dfltSet).duration_minutes →
        (defaultReps exs).1.getD i dfltSet = exs.getD i dfltSet ∧
          i ∉ (defaultReps exs).2) ∧
      (truthyNat (exs.getD i dfltSet).reps →
        (defaultReps exs).1.getD i dfltSet = exs.getD i dfltSet) := by
  refine ⟨?_, ?_, ?_⟩
  · unfold defaultReps
    rw [defaultRepsLoop_fst]
    simp
  · intro j hj
    unfold defaultReps at hj
    rw [defaultRepsLoop_snd] at hj
    simp only [List.mem_map, List.mem_filter, List.mem_range] at hj
    obtain ⟨k, ⟨hk, _⟩, rfl⟩ := hj
    omega
  intro i h
  have hm : i < (exs.map repsDefaultOne).length := by simpa using h
  have hfst : (defaultReps exs).1.getD i dfltSet = repsDefaultOne (exs.getD i dfltSet) := by
    unfold defaultReps
    rw [defaultRepsLoop_fst, List.getD_eq_getElem _ _ hm, List.getElem_map,
      List.getD_eq_getElem _ _ h]
  have hsnd : i ∈ (defaultReps exs).2 ↔ assumedAt exs i := by
    unfold defaultReps
    rw [defaultRepsLoop_snd]
    simp only [List.mem_map, List.mem_filter, List.mem_range]
    constructor
    · rintro ⟨j, ⟨hj, ha⟩, rfl⟩
      simpa using ha
    · intro ha
      exact ⟨i, ⟨h, ha⟩, by omega⟩
  refine ⟨?_, ?_, ?_, ?_⟩
  · rw [hsnd]
    simp [assumedAt]
  · intro hc
    rw [hfst]
    unfold repsDefaultOne
    rw [if_neg (by simpa using hc.1), if_pos (by simpa using hc.2)]
  · intro hc
    constructor
    · rw [hfst]
      unfold repsDefaultOne
      rw [if_pos hc]
    · rw [hsnd]
      unfold assumedAt
      rw [hc]
      simp
  · intro hc
    rw [hfst]
    unfold repsDefaultOne
    by_cases hd : truthyQ (exs.getD i dfltSet).duration_minutes
    · rw [if_pos hd]
    · rw [if_neg hd, if_neg (by simpa using hc)]

/-- Witness for the C8 theorem: a strength set with no reps gets 10 reps
and its index is flagged. -/
theorem C8_reps_defaulting_witness :
    (defaultReps [benchNoReps]).1.getD 0 dfltSet =
        { benchNoReps with reps := some 10 } ∧
      0 ∈ (defaultReps [benchNoReps]).2 :=
  ⟨((C8_reps_defaulting [benchNoReps]).2.2 0 (by decide)).2.1 (by decide),
   ((C8_reps_defaulting [benchNoReps]).2.2 0 (by decide)).1.mpr (by decide)⟩

/-- Filtering an expansion by exercise name commutes with restricting the
input to that name, because expansion preserves each entry's name. -/
theorem flatMap_filter_name (exs l : List ExerciseSet) (n : String) :
    (l.flatMap (expandOne exs)).filter (fun e => e.exercise_name == n) =
      (l.filter (fun e => e.exercise_name == n)).flatMap (expandOne exs) := by
  induction l with
  | nil => rfl
  | cons x rest ih =>
    have hnames : ∀ e ∈ expandOne exs x, e.exercise_name = x.exercise_name := by
      intro e he
      unfold expandOne at he
      split at he
      · obtain ⟨i, hi, rfl⟩ := List.mem_map.mp he
        rfl
      · rw [List.mem_singleton.mp he]
    by_cases hn : x.exercise_name == n
    · have hkeep : (expandOne exs x).filter (fun e => e.exercise_name == n) =
          expandOne exs x := by
        apply List.filter_eq_self.mpr
        intro e he
        simpa [hnames e he] using hn
      simp [List.flatMap_cons, List.filter_append, hkeep, List.filter_cons, hn, ih]
    · have hdrop : (expandOne exs x).filter (fun e => e.exercise_name == n) = [] := by
        apply List.filter_eq_nil_iff.mpr
        intro e he
        simpa [hnames e he] using hn
      simp [List.flatMap_cons, List.filter_append, hdrop, List.filter_cons, hn, ih]

/-- A flat map whose function is pointwise the singleton is the identity. -/
theorem flatMap_id_of_singleton {α : Type} (l : List α) (f : α → List α)
    (h : ∀ x ∈ l, f x = [x]) : l.flatMap f = l := by
  induction l with
  | nil => rfl
  | cons x rest ih =>
    rw [List.flatMap_cons, h x (List.mem_cons_self x rest),
      ih (fun y hy => h y (List.mem_cons_of_mem x hy))]
    rfl

/-- When a name occurs exactly once, the rows carrying it form a singleton. -/
theorem filter_eq_singleton_of_count_one (exs : List ExerciseSet) (ex : ExerciseSet)
    (hex : ex ∈ exs) (h1 : nameCount exs ex.exercise_name = 1) :
    exs.filter (fun e => e.exercise_name == ex.exercise_name) = [ex] := by
  have hlen : (exs.filter (fun e => e.exercise_name == ex.exercise_name)).length = 1 := by
    rw [← List.countP_eq_length_filter]
    exact h1
  obtain ⟨a, ha⟩ := List.length_eq_one.mp hlen
  have hmem : ex ∈ exs.filter (fun e => e.exercise_name == ex.exercise_name) := by
    rw [List.mem_filter]
    exact ⟨hex, by simp⟩
  rw [ha] at hmem ⊢
  rw [List.mem_singleton.mp hmem]

/-- The output rows carrying a given name are the expansion of the input
rows carrying that name. -/
theorem filter_expandSets (exs : List ExerciseSet) (n : String) :
    (expandSets exs).filter (fun e => e.exercise_name == n) =
      (exs.filter (fun e => e.exercise_name == n)).flatMap (expandOne exs) := by
  unfold expandSets
  exact flatMap_filter_name exs exs n

/-- Claim C2: a set whose exercise name occurs exactly once and whose
set_number is N > 1 is replaced by exactly N copies numbered 1..N with all
other fields unchanged; sets whose name occurs more than once pass through
untouched; and a single set with set_number 1 is unchanged. -/
theorem C2_set_expander (exs : List ExerciseSet) (ex : ExerciseSet) (hex : ex ∈ exs) :
    (nameCount exs ex.exercise_name = 1 → ex.set_number > 1 →
      (expandSets exs).filter (fun e => e.exercise_name == ex.exercise_name) =
        (List.range ex.set_number).map (fun i => { ex with set_number := i + 1 })) ∧
    (nameCount exs ex.exercise_name > 1 →
      (expandSets exs).filter (fun e => e.exercise_name == ex.exercise_name) =
        exs.filter (fun e => e.exercise_name == ex.exercise_name)) ∧
    (ex.set_number = 1 → expandSets [ex] = [ex]) := by
  refine ⟨?_, ?_, ?_⟩
  · intro h1 hsn
    rw [filter_expandSets, filter_eq_singleton_of_count_one exs ex hex h1]
    simp [expandOne, h1, hsn]
  · intro hgt
    rw [filter_expandSets]
    apply flatMap_id_of_singleton
    intro x hx
    rw [List.mem_filter] at hx
    have hname : x.exercise_name = ex.exercise_name := by simpa using hx.2
    unfold expandOne
    rw [if_neg]
    rintro ⟨hc1, _⟩
    rw [hname] at hc1
    omega
  · intro hsn
    simp [expandSets, expandOne, nameCount, hsn]

/-- Claim C10: the set expander is idempotent on every input list. -/
theorem C10_expand_idempotent (exs : List ExerciseSet) :
    expandSets (expandSets exs) = expandSets exs := by
  show (expandSets exs).flatMap (expandOne (expandSets exs)) = expandSets exs
  apply flatMap_id_of_singleton
  intro e he
  obtain ⟨x, hx, hex⟩ := List.mem_flatMap.mp he
  by_cases hc : nameCount exs x.exercise_name = 1 ∧ x.set_number > 1
  · have hfe : (expandSets exs).filter (fun q => q.exercise_name == x.exercise_name) =
        expandOne exs x := by
      rw [filter_expandSets, filter_eq_singleton_of_count_one exs x hx hc.1]
      simp
    have hcount : nameCount (expandSets exs) x.exercise_name = x.set_number := by
      unfold nameCount
      rw [List.countP_eq_length_filter, hfe]
      unfold expandOne
      rw [if_pos hc]
      simp
    unfold expandOne at hex
    rw [if_pos hc] at hex
    obtain ⟨i, hi, rfl⟩ := List.mem_map.mp hex
    unfold expandOne
    rw [if_neg]
    rintro ⟨hc1, _⟩
    rw [show ({ x with set_number := i + 1 } : ExerciseSet).exercise_name =
      x.exercise_name from rfl] at hc1
    rw [hcount] at hc1
    omega
  · unfold expandOne at hex
    rw [if_neg hc] at hex
    have hex2 : e = x := List.mem_singleton.mp hex
    subst hex2
    by_cases h1 : nameCount exs e.exercise_name = 1
    · have hsn : ¬ e.set_number > 1 := fun hgt => hc ⟨h1, hgt⟩
      have hfe : (expandSets exs).filter (fun q => q.exercise_name == e.exercise_name) =
          [e] := by
        rw [filter_expandSets, filter_eq_singleton_of_count_one exs e hx h1]
        simp [expandOne, hc]
      have hcount : nameCount (expandSets exs) e.exercise_name = 1 := by
        unfold nameCount
        rw [List.countP_eq_length_filter, hfe]
        rfl
      unfold expandOne
      rw [if_neg]
      rintro ⟨_, hgt⟩
      exact hsn hgt
    · have hfe : (expandSets exs).filter (fun q => q.exercise_name == e.exercise_name) =
          exs.filter (fun q => q.exercise_name == e.exercise_name) := by
        rw [filter_expandSets]
        apply flatMap_id_of_singleton
        intro y hy
        rw [List.mem_filter] at hy
        have hname : y.exercise_name = e.exercise_name := by simpa using hy.2
        unfold expandOne
        rw [if_neg]
        rintro ⟨hc1, _⟩
        rw [hname] at hc1
        exact h1 hc1
      have hcount : nameCount (expandSets exs) e.exercise_name =
          nameCount exs e.exercise_name := by
        unfold nameCount
        rw [List.countP_eq_length_filter, hfe, ← List.countP_eq_length_filter]
      unfold expandOne
      rw [if_neg]
      rintro ⟨hc1, _⟩
      rw [hcount] at hc1
      exact h1 hc1

/-- Witness for the C2 theorem: a lone "Curl" entry with set_number 3 in a
two-exercise extraction expands to three copies numbered 1..3. -/
theorem C2_set_expander_witness :
    (expandSets [curlThree, squatOne]).filter
        (fun e => e.exercise_name == curlThree.exercise_name) =
      (List.range curlThree.set_number).map
        (fun i => { curlThree with set_number := i + 1 }) :=
  (C2_set_expander [curlThree, squatOne] curlThree (by decide)).1
    (by decide) (by decide)

/-- `findSome?` yields a value when some member maps to one. -/
theorem findSome?_isSome_of_mem {α β : Type} (l : List α) (f : α → Option β) (x : α)
    (hx : x ∈ l) (hfx : f x ≠ none) : ∃ y, l.findSome? f = some y := by
  cases h : l.findSome? f with
  | some y => exact ⟨y, rfl⟩
  | none =>
    exact absurd (List.findSome?_eq_none_iff.mp h x hx) hfx

/-- A PR message is never a weight-increase message. -/
theorem pr_msg_ne_weight_msg (a b : String) :
    ("New PR on " ++ a ++ "!") ≠ ("Moving up in weight on " ++ b ++ ".") := by
  intro h
  have hN : ("New PR on " ++ a ++ "!").data.head? = some 'N' := by
    rw [String.data_append, String.data_append]
    rfl
  rw [h] at hN
  rw [String.data_append, String.data_append] at hN
  have hM : (("Moving up in weight on ").data ++ b.data ++ (".").data).head? =
      some 'M' := rfl
  rw [hM] at hN
  simp at hN

/-- Claim C1: the commentary engine checks the heuristics in strict priority
order — when some logged non-cardio exercise with truthy weight has a batch
maximum exceeding its positive historical maximum the result is the PR
message and never the weight-increase message; when no PR applies and some
logged exercise has zero history rows the result is the first-time message;
and an empty batch yields none. -/
theorem C1_commentary (logged : List LoggedSet) (hist : List HistSet) (now : ℤ) :
    ((∃ ex ∈ dedupExercises logged, ex.is_cardio = false ∧ truthyQ ex.weight ∧
        0 < maxHistorical hist ex.exercise_id ∧
        maxHistorical hist ex.exercise_id < maxCurrent logged ex.exercise_id) →
      (∃ n, generate_log_comment logged hist now = some ("New PR on " ++ n ++ "!")) ∧
      ∀ n, generate_log_comment logged hist now ≠
        some ("Moving up in weight on " ++ n ++ ".")) ∧
    ((∀ ex ∈ dedupExercises logged, ¬(ex.is_cardio = false ∧ truthyQ ex.weight ∧
        0 < maxHistorical hist ex.exercise_id ∧
        maxHistorical hist ex.exercise_id < maxCurrent logged ex.exercise_id)) →
      (∃ ex ∈ dedupExercises logged, ∀ ws ∈ hist, ws.exercise_id ≠ ex.exercise_id) →
      ∃ n, generate_log_comment logged hist now =
        some ("First time logging " ++ n ++ ".")) ∧
    generate_log_comment [] hist now = none := by
  refine ⟨?_, ?_, rfl⟩
  · rintro ⟨ex, hmem, hcard, hw, hpos, hlt⟩
    have hne : logged ≠ [] := by
      intro h
      rw [h] at hmem
      exact absurd hmem (by simp [dedupExercises, dedupExercisesAux])
    have hfx : (fun ex : LoggedSet =>
        if ex.is_cardio || !truthyQ ex.weight then none
        else
          if maxHistorical hist ex.exercise_id > 0 ∧
              maxCurrent logged ex.exercise_id > maxHistorical hist ex.exercise_id then
            some ("New PR on " ++ ex.name ++ "!")
          else none) ex ≠ none := by
      simp only [hcard, hw]
      rw [if_neg (by simp)]
      rw [if_pos ⟨hpos, hlt⟩]
      simp
    obtain ⟨y, hy⟩ := findSome?_isSome_of_mem (dedupExercises logged)
      (fun ex : LoggedSet =>
        if ex.is_cardio || !truthyQ ex.weight then none
        else
          if maxHistorical hist ex.exercise_id > 0 ∧
              maxCurrent logged ex.exercise_id > maxHistorical hist ex.exercise_id then
            some ("New PR on " ++ ex.name ++ "!")
          else none) ex hmem hfx
    have hshape : ∃ n, y = "New PR on " ++ n ++ "!" := by
      obtain ⟨x, hxmem, hxfx⟩ := List.exists_of_findSome?_eq_some hy
      by_cases hb : x.is_cardio || !truthyQ x.weight
      · rw [if_pos hb] at hxfx
        cases hxfx
      · rw [if_neg hb] at hxfx
        by_cases hcond : maxHistorical hist x.exercise_id > 0 ∧
            maxCurrent logged x.exercise_id > maxHistorical hist x.exercise_id
        · rw [if_pos hcond] at hxfx
          exact ⟨x.name, (Option.some.injEq _ _ ▸ hxfx).symm⟩
        · rw [if_neg hcond] at hxfx
          cases hxfx
    have hpr : prCheck logged hist = some y := hy
    have hgen : generate_log_comment logged hist now = some y := by
      unfold generate_log_comment
      rw [if_neg hne]
      rw [hpr]
      rfl
    obtain ⟨n, rfl⟩ := hshape
    exact ⟨⟨n, hgen⟩, fun m hm => by
      rw [hgen] at hm
      exact pr_msg_ne_weight_msg n m (Option.some.injEq _ _ ▸ hm)⟩
  · rintro hnopr ⟨ex, hmem, hnohist⟩
    have hne : logged ≠ [] := by
      intro h
      rw [h] at hmem
      exact absurd hmem (by simp [dedupExercises, dedupExercisesAux])
    have hprnone : prCheck logged hist = none := by
      apply List.findSome?_eq_none_iff.mpr
      intro x hx
      by_cases hb : x.is_cardio || !truthyQ x.weight
      · rw [if_pos hb]
      · rw [if_neg hb]
        rw [if_neg]
        rintro ⟨hpos, hlt⟩
        simp only [Bool.or_eq_true, Bool.not_eq_true', not_or] at hb
        exact hnopr x hx ⟨by simpa using hb.1, by simpa using hb.2, hpos, hlt⟩
    have hfx2 : (fun ex : LoggedSet =>
        if hist.all (fun ws => ws.exercise_id != ex.exercise_id) then
          some ("First time logging " ++ ex.name ++ ".")
        else none) ex ≠ none := by
      show (if hist.all (fun ws => ws.exercise_id != ex.exercise_id) then
        some ("First time logging " ++ ex.name ++ ".") else none) ≠ none
      rw [if_pos (List.all_eq_true.mpr (fun ws hws => by simpa using hnohist ws hws))]
      simp
    obtain ⟨y, hy⟩ := findSome?_isSome_of_mem (dedupExercises logged)
      (fun ex : LoggedSet =>
        if hist.all (fun ws => ws.exercise_id != ex.exercise_id) then
          some ("First time logging " ++ ex.name ++ ".")
        else none) ex hmem hfx2
    have hshape : ∃ n, y = "First time logging " ++ n ++ "." := by
      obtain ⟨x, hxmem, hxfx⟩ := List.exists_of_findSome?_eq_some hy
      by_cases hb : hist.all (fun ws => ws.exercise_id != x.exercise_id)
      · rw [if_pos hb] at hxfx
        exact ⟨x.name, (Option.some.injEq _ _ ▸ hxfx).symm⟩
      · rw [if_neg hb] at hxfx
        cases hxfx
    have hft : firstTimeCheck logged hist = some y := hy
    obtain ⟨n, rfl⟩ := hshape
    refine ⟨n, ?_⟩
    unfold generate_log_comment
    rw [if_neg hne]
    simp only [hprnone, hft]
    rfl

/-- Witness for the C1 theorem: a heavier set over a lighter history gets
the PR message, and an exercise with no history gets the first-time
message. -/
theorem C1_commentary_witness :
    (∃ n, generate_log_comment [prLogged] [prHist] 0 =
      some ("New PR on " ++ n ++ "!")) ∧
    (∃ n, generate_log_comment [prLogged] [] 0 =
      some ("First time logging " ++ n ++ ".")) :=
  ⟨((C1_commentary [prLogged] [prHist] 0).1
      ⟨prLogged, by decide, by decide, by decide, by decide, by decide⟩).1,
   (C1_commentary [prLogged] [] 0).2.1 (by decide) (by decide)⟩

/-- Claim C6: batch deletion is scoped to (batch id, user id) — a delete by
another user of a batch owned only by user A reports not-found exactly as a
wholly absent id does, leaves the state unchanged, and user A can still
delete the batch afterwards (the reply is not the not-found report and the
batch rows are gone). -/
theorem C6_delete_scoped (st : List WorkoutRow) (bid uA uB : Nat)
    (hne : uB ≠ uA)
    (hown : ∀ r ∈ st, r.batch_id = bid → r.user_id = uA)
    (hex : ∃ r ∈ st, r.batch_id = bid) :
    (handleDeleteById st bid uB).1 = notFoundMsg bid ∧
    (handleDeleteById st bid uB).2 = st ∧
    (∀ bid2, (∀ r ∈ st, r.batch_id ≠ bid2) →
      (handleDeleteById st bid2 uB).1 = notFoundMsg bid2) ∧
    ((handleDeleteById st bid uA).1 ≠ notFoundMsg bid ∧
      ∀ r ∈ (handleDeleteById st bid uA).2,
        ¬(r.batch_id = bid ∧ r.user_id = uA)) := by
  have hBfil : st.filter (fun r => r.batch_id == bid && r.user_id == uB) = [] := by
    apply List.filter_eq_nil_iff.mpr
    intro r hr
    simp only [Bool.and_eq_true, beq_iff_eq]
    rintro ⟨h1, h2⟩
    exact hne (h2 ▸ (hown r hr h1).symm ▸ rfl)
  have hdelB : deleteBatch st bid uB = ([], st) := by
    unfold deleteBatch
    rw [hBfil]
    simp
  have hAfilne : st.filter (fun r => r.batch_id == bid && r.user_id == uA) ≠ [] := by
    obtain ⟨r, hr, hb⟩ := hex
    intro hnil
    have := List.filter_eq_nil_iff.mp hnil r hr
    simp only [Bool.and_eq_true, beq_iff_eq] at this
    exact this ⟨hb, hown r hr hb⟩
  obtain ⟨d0, rest, hds⟩ := List.exists_cons_of_ne_nil hAfilne
  have hdelA : deleteBatch st bid uA =
      (d0 :: rest, st.filter (fun r => !(r.batch_id == bid && r.user_id == uA))) := by
    unfold deleteBatch
    rw [hds]
    simp
  refine ⟨?_, ?_, ?_, ?_, ?_⟩
  · unfold handleDeleteById
    rw [hdelB]
  · unfold handleDeleteById
    rw [hdelB]
  · intro bid2 habs
    have hfil2 : st.filter (fun r => r.batch_id == bid2 && r.user_id == uB) = [] := by
      apply List.filter_eq_nil_iff.mpr
      intro r hr
      simp only [Bool.and_eq_true, beq_iff_eq]
      rintro ⟨h1, _⟩
      exact habs r hr h1
    have hdel2 : deleteBatch st bid2 uB = ([], st) := by
      unfold deleteBatch
      rw [hfil2]
      simp
    unfold handleDeleteById
    rw [hdel2]
  · have hD : (handleDeleteById st bid uA).1.data.head? = some 'D' := by
      unfold handleDeleteById
      rw [hdelA]
      simp only [String.data_append]
      rfl
    have hW : (notFoundMsg bid).data.head? = some 'W' := by
      unfold notFoundMsg
      simp only [String.data_append]
      rfl
    intro hc
    rw [hc, hW] at hD
    exact absurd hD (by decide)
  · have hst : (handleDeleteById st bid uA).2 =
        st.filter (fun r => !(r.batch_id == bid && r.user_id == uA)) := by
      unfold handleDeleteById
      rw [hdelA]
    intro r hr
    rw [hst, List.mem_filter] at hr
    have h2 := hr.2
    simp only [Bool.not_eq_true', Bool.and_eq_false_iff, beq_eq_false_iff_ne] at h2
    rintro ⟨hb, hu⟩
    rcases h2 with h | h
    · exact h hb
    · exact h hu

/-- Witness for the C6 theorem: user 2 cannot delete user 1's batch 5. -/
theorem C6_delete_scoped_witness :
    (handleDeleteById [mkRow 1 5] 5 2).1 = notFoundMsg 5 ∧
    (handleDeleteById [mkRow 1 5] 5 2).2 = [mkRow 1 5] :=
  ⟨(C6_delete_scoped [mkRow 1 5] 5 1 2 (by decide) (by decide) (by decide)).1,
   (C6_delete_scoped [mkRow 1 5] 5 1 2 (by decide) (by decide) (by decide)).2.1⟩

end Nunzio
